import Mathlib

/-!
Verification development for the MCP agent datasource: a shallow embedding of
the query orchestration agent (`pkg/agent/agent.go`), the deterministic
stand-in reasoning provider (`pkg/agent/mock_provider.go`), the remote
reasoning provider's decision parsing (`pkg/agent/anthropic_provider.go`),
and the datasource connection management (`pkg/plugin/datasource.go`).

Loosely-typed Go values (`map[string]interface{}` arguments, `interface{}`
result data) are embedded as a tagged JSON value union with ordered
association lists for objects; JSON numbers are modelled as integers (the
only numbers the code produces are integers).  Timestamps (`time.Time`)
are modelled as opaque integers.  Network effects are modelled by oracle
fields recording the outcome of each remote call the agent makes.
-/

namespace MCPAgent

/-- Tagged dynamic value union standing in for Go's `interface{}` as produced
by `encoding/json`: null, booleans, integers, strings, arrays, string-keyed
objects (ordered association lists). -/
inductive Json where
  | null : Json
  | bool (b : Bool) : Json
  | num (n : Int) : Json
  | str (s : String) : Json
  | arr (xs : List Json) : Json
  | obj (kvs : List (String × Json)) : Json

/-- Substring test on character lists, mirroring Go's `strings.Contains`. -/
def listContainsSub (hay pat : List Char) : Bool :=
  match hay with
  | [] => pat.isEmpty
  | _ :: t => pat.isPrefixOf hay || listContainsSub t pat

/-- Embedding of `strings.Contains s pat`. -/
def strContains (s pat : String) : Bool :=
  listContainsSub s.data pat.data

/-- Embedding of `strings.ToLower` (characterwise lower-casing; the code
only compares ASCII keywords). -/
def strToLower (s : String) : String :=
  String.mk (s.data.map Char.toLower)

/-- Go map lookup over an ordered association list built in insertion order:
a later binding for the same key overwrites an earlier one, as in a Go
`map[string]interface{}` populated in that order. -/
def jlookup (kvs : List (String × Json)) (k : String) : Option Json :=
  kvs.foldl (fun acc p => if p.1 = k then some p.2 else acc) none

/-- Tool descriptor as returned by `tools/list` (`mcp.Tool`): name and
human-readable description. -/
structure MTool where
  name : String
  description : String
deriving DecidableEq

/-- Embedding of `agent.ToolCall`: the reasoning provider's decision to call
one tool with an argument mapping and free-text reasoning. -/
structure ToolCall where
  toolName : String
  arguments : List (String × Json)
  reasoning : String

/-- Embedding of `agent.ToolResult`: one outcome per tool invocation.
`data` is the normalized payload (`Json.null` stands for Go's nil
`interface{}`). -/
structure ToolResult where
  toolName : String
  success : Bool
  data : Json
  error : String

/-- Embedding of `agent.QueryResult`: the value `Agent.ProcessQuery` hands
back to its caller. -/
structure QueryResult where
  query : String
  toolCalls : List ToolCall
  results : List ToolResult
  summary : String
  processedAt : Int

/-! ### Deterministic stand-in provider (`MockProvider.GenerateToolCall`) -/

/-- Intent-keyword test of `MockProvider.GenerateToolCall`: the query (already
lower-cased) must mention one of log/search/query/find/error for the
loki-tool branch to be considered at all. -/
def intentKeywordMatch (queryLower : String) : Bool :=
  strContains queryLower "log" || strContains queryLower "search" ||
  strContains queryLower "query" || strContains queryLower "find" ||
  strContains queryLower "error"

/-- LogQL template choice inside `MockProvider.GenerateToolCall`:
error-pattern over warning-pattern over catch-all. -/
def logQueryFor (queryLower : String) : String :=
  if strContains queryLower "error" then "\x7blevel=\"error\"\x7d"
  else if strContains queryLower "warn" then "\x7blevel=\"warn\"\x7d"
  else "\x7bjob=~\".+\"\x7d"

/-- Invocation built by `MockProvider.GenerateToolCall` when a loki tool
matches: the selected LogQL template plus `limit = 100`. -/
def mockLokiCall (query queryLower : String) (tool : MTool) : ToolCall :=
  { toolName := tool.name
  , arguments := [("query", Json.str (logQueryFor queryLower)), ("limit", Json.num 100)]
  , reasoning := "The user's query '" ++ query ++
      "' appears to be asking for log data, so I'll use the " ++ tool.name ++
      " tool to search for relevant logs." }

/-- Fallback invocation of `MockProvider.GenerateToolCall`: the first catalog
entry with empty arguments. -/
def mockFallback (query : String) (tool : MTool) : ToolCall :=
  { toolName := tool.name
  , arguments := []
  , reasoning := "I'll use the " ++ tool.name ++
      " tool to help answer your query: " ++ query }

/-- Loop body of `MockProvider.GenerateToolCall`: scan the catalog in order
and return the loki invocation for the first tool whose (lower-cased) name
contains "loki", provided the query matches the intent keywords. -/
def mockScanTools (query queryLower : String) : List MTool → Option ToolCall
  | [] => none
  | tool :: rest =>
    if intentKeywordMatch queryLower && strContains (strToLower tool.name) "loki" then
      some (mockLokiCall query queryLower tool)
    else mockScanTools query queryLower rest

/-- Embedding of `MockProvider.GenerateToolCall`: empty catalog yields no
call; otherwise scan for a loki tool, falling back to the first catalog
entry with empty arguments. -/
def mockGenerateToolCall (query : String) (tools : List MTool) : Option ToolCall :=
  match tools with
  | [] => none
  | firstTool :: _ =>
    match mockScanTools query (strToLower query) tools with
    | some tc => some tc
    | none => some (mockFallback query firstTool)

/-! ### Tool invocation (`Agent.executeTool`) -/

/-- Content segment of a `tools/call` response (`mcp.Content`): a text
segment or an opaque non-text segment carrying its JSON form. -/
inductive MContent where
  | text (s : String) : MContent
  | other (payload : Json) : MContent

/-- JSON form of a content segment, as `encoding/json` would marshal it
(`mcp.TextContent` marshals to an object with type and text). -/
def contentJson : MContent → Json
  | .text s => Json.obj [("type", Json.str "text"), ("text", Json.str s)]
  | .other payload => payload

/-- Embedding of `mcp.AsTextContent`: the text of a text segment. -/
def textOf : MContent → Option String
  | .text s => some s
  | .other _ => none

/-- Embedding of `mcp.CallToolResult`: content segments plus the
server-reported error flag. -/
structure CallToolResult where
  content : List MContent
  isError : Bool

/-- Embedding of `Agent.executeTool`: a transport failure produces a failed
outcome carrying the error text and is also returned as a Go error; on
transport success the text segments are joined with newlines (falling back
to the raw content when no text segment exists, and to nil when the content
is empty) and the success flag is the negation of the server error flag. -/
def executeTool (tc : ToolCall) (callRes : Except String CallToolResult) :
    ToolResult × Option String :=
  match callRes with
  | .error e =>
    ({ toolName := tc.toolName, success := false, data := Json.null, error := e }, some e)
  | .ok result =>
    let resultData : Json :=
      if result.content.length > 0 then
        let textContents := result.content.filterMap textOf
        if textContents.length > 0 then
          Json.str (String.intercalate "\n" textContents)
        else
          Json.arr (result.content.map contentJson)
      else Json.null
    ({ toolName := tc.toolName, success := !result.isError, data := resultData, error := "" },
     none)

/-! ### Query orchestration (`Agent.ProcessQuery`) -/

/-- Oracle for the remote calls one `ProcessQuery` run makes: the tool
listing, the provider's decision, the single tool invocation's transport
result, and the outcomes of the two possible `GenerateResponse` calls (the
no-tool explanation and the summary).  `now` is the completion timestamp.
Prompt texts are irrelevant to the claims and are abstracted into the two
respond oracles. -/
structure AgentEnv where
  listTools : Except String (List MTool)
  generateToolCall : Except String (Option ToolCall)
  callTool : Except String CallToolResult
  respondNoTool : Except String String
  respondSummary : Except String String
  now : Int

/-- Embedding of `Agent.ProcessQuery`: list tools, ask the provider for a
decision, invoke the chosen tool once (capturing failures as a failed
outcome), and summarize, falling back to a fixed template naming the tool
and the query when summarization fails. -/
def processQuery (env : AgentEnv) (query : String) : Except String QueryResult :=
  match env.listTools with
  | .error e => .error ("failed to get available tools: " ++ e)
  | .ok _tools =>
    match env.generateToolCall with
    | .error e => .error ("failed to generate tool call: " ++ e)
    | .ok none =>
      match env.respondNoTool with
      | .error e => .error ("failed to generate response: " ++ e)
      | .ok response =>
        .ok { query := query, toolCalls := [], results := [], summary := response,
              processedAt := env.now }
    | .ok (some toolCall) =>
      let execOutcome := executeTool toolCall env.callTool
      let toolResult : ToolResult :=
        match execOutcome.2 with
        | some e =>
          { toolName := toolCall.toolName, success := false, data := Json.null, error := e }
        | none => execOutcome.1
      let summary : String :=
        match env.respondSummary with
        | .error _ => "Executed tool '" ++ toolCall.toolName ++ "' for query: " ++ query
        | .ok s => s
      .ok { query := query, toolCalls := [toolCall], results := [toolResult],
            summary := summary, processedAt := env.now }

/-! ### Datasource natural-language query path
(`Datasource.executeNaturalLanguageQuery` in `pkg/plugin/datasource.go`) -/

/-- Network-facing operation attempted by the natural-language query path:
the MCP client handshake (create/start/init) or a `tools/list` call. -/
inductive NetEvent where
  | handshake : NetEvent
  | listToolsCall : NetEvent
deriving DecidableEq

/-- Oracle for the datasource's remote interactions: the outcome of
`createMCPClient` (handles are modelled as numbers) and of `ListTools`. -/
structure DsEnv where
  createClient : Except String Nat
  listTools : Except String (List MTool)

/-- Backend data response shape relevant to the claims: a bad-request
rejection, an internal error, or a result frame carrying the query text and
the advertised tool count. -/
inductive DataResponse where
  | badRequest (msg : String) : DataResponse
  | internalError (msg : String) : DataResponse
  | frames (queryText : String) (toolCount : Nat) : DataResponse
deriving DecidableEq

/-- Embedding of `Datasource.executeNaturalLanguageQuery`, instrumented with
the list of network operations it attempts: reject an empty query text with
a bad-request error, otherwise acquire the MCP client (`getMCPClient`,
performing the handshake unless a client is cached) and list tools. -/
def executeNaturalLanguageQuery (env : DsEnv) (cached : Option Nat) (queryText : String) :
    DataResponse × List NetEvent :=
  if queryText = "" then
    (.badRequest "query text is required for natural language queries", [])
  else
    let clientStep : Except String Nat × List NetEvent :=
      match cached with
      | some c => (.ok c, [])
      | none =>
        match env.createClient with
        | .ok c => (.ok c, [NetEvent.handshake])
        | .error e => (.error ("failed to create MCP client: " ++ e), [NetEvent.handshake])
    match clientStep.1 with
    | .error e => (.internalError ("failed to get MCP client: " ++ e), clientStep.2)
    | .ok _ =>
      match env.listTools with
      | .error e =>
        (.internalError ("failed to list tools: " ++ e), clientStep.2 ++ [NetEvent.listToolsCall])
      | .ok tools =>
        (.frames queryText tools.length, clientStep.2 ++ [NetEvent.listToolsCall])

/-! ### Connection management (`Datasource.getMCPClient`)

The shared mutable state is the cached client handle (`d.mcpClient`) plus an
instrumentation counter of handshakes performed (`createMCPClient` calls).
Handles are modelled as numbers; a fresh handle is identified by the value
of the handshake counter at creation time. -/

/-- Shared connection state: the cached client handle and the number of
handshakes performed so far. -/
structure SharedConn where
  client : Option Nat
  handshakes : Nat
deriving DecidableEq

/-- Embedding of one sequential `getMCPClient` call: return the cached
handle if present, otherwise perform the handshake (`createMCPClient`,
outcome given by the `create` oracle, indexed by the attempt number) and
cache the new handle on success. -/
def getMCPClientOnce (create : Nat → Except String Nat) (s : SharedConn) :
    Except String Nat × SharedConn :=
  match s.client with
  | some h => (.ok h, s)
  | none =>
    match create s.handshakes with
    | .ok h => (.ok h, ⟨some h, s.handshakes + 1⟩)
    | .error e => (.error e, ⟨none, s.handshakes + 1⟩)

/-- Sequence of `n` sequential `getMCPClient` calls, collecting the results. -/
def runAcquires (create : Nat → Except String Nat) : Nat → SharedConn →
    List (Except String Nat) × SharedConn
  | 0, s => ([], s)
  | n + 1, s =>
    let step := getMCPClientOnce create s
    let rest := runAcquires create n step.2
    (step.1 :: rest.1, rest.2)

/-- Decidable success test on an acquire outcome. -/
def exceptIsOk : Except String Nat → Bool
  | .ok _ => true
  | .error _ => false

/-- Program counter of one task running `getMCPClient` concurrently: about
to read the cached-client field, about to perform the handshake after having
read nil, or finished holding a handle.  `getMCPClient` takes no lock, so
the read and the handshake-and-write are separate atomic steps. -/
inductive TaskPc where
  | start : TaskPc
  | connecting : TaskPc
  | done (handle : Nat) : TaskPc
deriving DecidableEq

/-- One atomic step of a task running `getMCPClient` against the shared
connection state: the unsynchronized nil-check, then (if nil was observed)
the handshake that installs a fresh handle. -/
def stepGetClient (sh : SharedConn) : TaskPc → SharedConn × TaskPc
  | .start =>
    match sh.client with
    | some h => (sh, .done h)
    | none => (sh, .connecting)
  | .connecting =>
    (⟨some sh.handshakes, sh.handshakes + 1⟩, .done sh.handshakes)
  | .done h => (sh, .done h)

/-- Configuration of two concurrent first-time `getMCPClient` calls. -/
structure TwoCalls where
  sh : SharedConn
  t0 : TaskPc
  t1 : TaskPc
deriving DecidableEq

/-- Scheduler step: run one atomic step of the chosen task. -/
def schedStep (cfg : TwoCalls) (who : Bool) : TwoCalls :=
  if who then
    let step := stepGetClient cfg.sh cfg.t1
    ⟨step.1, cfg.t0, step.2⟩
  else
    let step := stepGetClient cfg.sh cfg.t0
    ⟨step.1, step.2, cfg.t1⟩

/-- Run a schedule (interleaving) over the two tasks. -/
def runSched (cfg : TwoCalls) : List Bool → TwoCalls
  | [] => cfg
  | w :: ws => runSched (schedStep cfg w) ws

/-- Both tasks about to enter `getMCPClient` against a disconnected
datasource. -/
def initTwoCalls : TwoCalls := ⟨⟨none, 0⟩, .start, .start⟩

/-! ### JSON decoding (`encoding/json` as used by
`AnthropicProvider.GenerateToolCall`)

A small executable JSON reader standing in for `json.Unmarshal` into a
`map[string]interface{}`: it accepts a complete JSON document (arbitrary
trailing garbage is rejected, as `json.Unmarshal` rejects it) and requires
the top-level value to be an object.  Escapes are limited to the simple
one-character escapes and numbers to integers; the code under verification
produces neither `\u` escapes nor fractional numbers. -/

/-- JSON whitespace. -/
def jsonWs (c : Char) : Bool := c = ' ' || c = '\t' || c = '\n' || c = '\r'

/-- Drop leading JSON whitespace. -/
def skipWs : List Char → List Char
  | [] => []
  | c :: cs => if jsonWs c then skipWs cs else c :: cs

/-- Translation of a one-character string escape: quote, backslash and
slash map to themselves, the letter escapes to their control characters. -/
def escChar (e : Char) : Option Char :=
  if e = '"' || e = '\\' || e = '/' then some e
  else if e = 'n' then some '\n'
  else if e = 't' then some '\t'
  else if e = 'r' then some '\r'
  else if e = 'b' then some (Char.ofNat 8)
  else if e = 'f' then some (Char.ofNat 12)
  else none

/-- Read the body of a string literal after the opening quote, returning the
decoded characters and the rest of the input after the closing quote. -/
def parseStringBody : List Char → Option (List Char × List Char)
  | [] => none
  | '"' :: rest => some ([], rest)
  | '\\' :: rest =>
    match rest with
    | [] => none
    | e :: rest2 =>
      match escChar e with
      | none => none
      | some c =>
        match parseStringBody rest2 with
        | none => none
        | some (s, r) => some (c :: s, r)
  | c :: rest =>
    match parseStringBody rest with
    | none => none
    | some (s, r) => some (c :: s, r)

/-- Value of a decimal digit. -/
def digitVal (c : Char) : Option Nat :=
  if '0' ≤ c && c ≤ '9' then some (c.toNat - '0'.toNat) else none

/-- Take a maximal run of decimal digits. -/
def takeDigits : List Char → List Nat × List Char
  | [] => ([], [])
  | c :: cs =>
    match digitVal c with
    | some d =>
      let rest := takeDigits cs
      (d :: rest.1, rest.2)
    | none => ([], c :: cs)

/-- Combine digits into a number. -/
def digitsToNat (ds : List Nat) : Nat := ds.foldl (fun a d => a * 10 + d) 0

/-- Read an integer literal (optional minus sign, at least one digit). -/
def parseNumber : List Char → Option (Int × List Char)
  | '-' :: cs =>
    match takeDigits cs with
    | ([], _) => none
    | (ds, r) => some (-(Int.ofNat (digitsToNat ds)), r)
  | cs =>
    match takeDigits cs with
    | ([], _) => none
    | (ds, r) => some (Int.ofNat (digitsToNat ds), r)

mutual

/-- Read one JSON value, fuel-bounded. -/
def parseValue : Nat → List Char → Option (Json × List Char)
  | 0, _ => none
  | Nat.succ fuel, cs =>
    match skipWs cs with
    | '{' :: rest =>
      match skipWs rest with
      | '}' :: r => some (Json.obj [], r)
      | other =>
        match parseMembers fuel other with
        | none => none
        | some (kvs, r) => some (Json.obj kvs, r)
    | '[' :: rest =>
      match skipWs rest with
      | ']' :: r => some (Json.arr [], r)
      | other =>
        match parseElems fuel other with
        | none => none
        | some (vs, r) => some (Json.arr vs, r)
    | '"' :: rest =>
      match parseStringBody rest with
      | some (s, r) => some (Json.str (String.mk s), r)
      | none => none
    | 't' :: 'r' :: 'u' :: 'e' :: rest => some (Json.bool true, rest)
    | 'f' :: 'a' :: 'l' :: 's' :: 'e' :: rest => some (Json.bool false, rest)
    | 'n' :: 'u' :: 'l' :: 'l' :: rest => some (Json.null, rest)
    | other =>
      match parseNumber other with
      | some (n, r) => some (Json.num n, r)
      | none => none

/-- Read the members of a non-empty object, after the opening brace. -/
def parseMembers : Nat → List Char → Option (List (String × Json) × List Char)
  | 0, _ => none
  | Nat.succ fuel, cs =>
    match skipWs cs with
    | '"' :: rest =>
      match parseStringBody rest with
      | none => none
      | some (k, r1) =>
        match skipWs r1 with
        | ':' :: r2 =>
          match parseValue fuel r2 with
          | none => none
          | some (v, r3) =>
            match skipWs r3 with
            | ',' :: r4 =>
              match parseMembers fuel r4 with
              | none => none
              | some (kvs, r5) => some ((String.mk k, v) :: kvs, r5)
            | '}' :: r4 => some ([(String.mk k, v)], r4)
            | _ => none
        | _ => none
    | _ => none

/-- Read the elements of a non-empty array, after the opening bracket. -/
def parseElems : Nat → List Char → Option (List Json × List Char)
  | 0, _ => none
  | Nat.succ fuel, cs =>
    match parseValue fuel cs with
    | none => none
    | some (v, r1) =>
      match skipWs r1 with
      | ',' :: r2 =>
        match parseElems fuel r2 with
        | none => none
        | some (vs, r3) => some (v :: vs, r3)
      | ']' :: r2 => some ([v], r2)
      | _ => none

end

/-- Read a complete JSON document (trailing whitespace only). -/
def parseJsonValue (s : String) : Option Json :=
  match parseValue (s.length + 2) s.data with
  | some (v, rest) => if (skipWs rest).isEmpty then some v else none
  | none => none

/-- Embedding of `json.Unmarshal` into a `map[string]interface{}`: succeeds
exactly on a complete JSON document whose top-level value is an object. -/
def unmarshalObject (s : String) : Option (List (String × Json)) :=
  match parseJsonValue s with
  | some (Json.obj kvs) => some kvs
  | _ => none

/-! ### Remote decision parsing (`AnthropicProvider.GenerateToolCall`) -/

/-- Index of the first occurrence of a character, as `strings.Index` for a
one-character pattern. -/
def idxOfChar (c : Char) : List Char → Option Nat
  | [] => none
  | x :: xs => if x = c then some 0 else (idxOfChar c xs).map (· + 1)

/-- Index of the last occurrence of a character, as `strings.LastIndex` for
a one-character pattern. -/
def lastIdxOfChar (c : Char) (cs : List Char) : Option Nat :=
  match idxOfChar c cs.reverse with
  | some i => some (cs.length - 1 - i)
  | none => none

/-- Brace extraction of `AnthropicProvider.GenerateToolCall`: the substring
from the first opening brace to the last closing brace, available exactly
when both exist and enclose a non-empty range (`start >= 0 && end > start`
in the source). -/
def extractBracesSub (s : String) : Option String :=
  let cs := s.data
  match idxOfChar '{' cs, lastIdxOfChar '}' cs with
  | some start, some lastBrace =>
    if start < lastBrace + 1 then
      some (String.mk ((cs.drop start).take (lastBrace + 1 - start)))
    else none
  | _, _ => none

/-- Decision extraction of `AnthropicProvider.GenerateToolCall` applied to
the parsed reply object: a `no_tool_needed` binding equal to boolean true
means no tool call; otherwise `tool_name` must be a string (else a
reasoning error), `reasoning` defaults to the empty string and `arguments`
to the empty mapping when absent or of the wrong type. -/
def decisionOf (result : List (String × Json)) : Except String (Option ToolCall) :=
  match jlookup result "no_tool_needed" with
  | some (Json.bool true) => .ok none
  | _ =>
    match jlookup result "tool_name" with
    | some (Json.str toolName) =>
      let reasoning : String :=
        match jlookup result "reasoning" with
        | some (Json.str s) => s
        | _ => ""
      let arguments : List (String × Json) :=
        match jlookup result "arguments" with
        | some (Json.obj kvs) => kvs
        | _ => []
      .ok (some { toolName := toolName, arguments := arguments, reasoning := reasoning })
    | _ => .error "invalid tool_name in response"

/-- Test whether the parsed reply object indicates that no tool is needed
(a `no_tool_needed` binding equal to boolean true). -/
def noToolIndicated (result : List (String × Json)) : Bool :=
  match jlookup result "no_tool_needed" with
  | some (Json.bool true) => true
  | _ => false

/-- Test whether the parsed reply object carries a string `tool_name`. -/
def toolNameIsString (result : List (String × Json)) : Bool :=
  match jlookup result "tool_name" with
  | some (Json.str _) => true
  | _ => false

/-- Embedding of the reply-parsing tail of
`AnthropicProvider.GenerateToolCall`: parse the whole reply as a JSON
object; on failure extract the outermost-brace substring and retry; fail
with a reasoning error when neither parse succeeds, otherwise interpret the
decision object. -/
def anthropicGenerateToolCall (response : String) : Except String (Option ToolCall) :=
  match unmarshalObject response with
  | some result => decisionOf result
  | none =>
    match extractBracesSub response with
    | some jsonStr =>
      match unmarshalObject jsonStr with
      | some result => decisionOf result
      | none => .error "failed to parse tool selection response"
    | none => .error ("no valid JSON found in response: " ++ response)

/-! ### Wire JSON codec for `QueryResult`

The wire form is the JSON document produced by `encoding/json` from the
struct tags on `QueryResult`, `ToolCall` and `ToolResult` (`query`,
`tool_calls`, `results`, `summary`, `processed_at`; `tool_name`,
`arguments`, `reasoning`; `tool_name`, `success`, `data`,
`error,omitempty`).  Decoding follows `json.Unmarshal` into those structs:
missing or null fields decode to zero values, fields of the wrong shape are
rejected. -/

/-- Marshal a `ToolCall` following its struct tags. -/
def encodeToolCall (tc : ToolCall) : Json :=
  Json.obj [("tool_name", Json.str tc.toolName),
            ("arguments", Json.obj tc.arguments),
            ("reasoning", Json.str tc.reasoning)]

/-- Marshal a `ToolResult` following its struct tags; the `error` field is
omitted when empty (`omitempty`). -/
def encodeToolResult (tr : ToolResult) : Json :=
  Json.obj ([("tool_name", Json.str tr.toolName),
             ("success", Json.bool tr.success),
             ("data", tr.data)] ++
            (if tr.error = "" then [] else [("error", Json.str tr.error)]))

/-- Marshal a `QueryResult` following its struct tags. -/
def encodeQueryResult (qr : QueryResult) : Json :=
  Json.obj [("query", Json.str qr.query),
            ("tool_calls", Json.arr (qr.toolCalls.map encodeToolCall)),
            ("results", Json.arr (qr.results.map encodeToolResult)),
            ("summary", Json.str qr.summary),
            ("processed_at", Json.num qr.processedAt)]

/-- Unmarshal a string struct field: missing and null decode to the empty
string, a non-string value is rejected. -/
def decodeStringField (kvs : List (String × Json)) (k : String) : Option String :=
  match jlookup kvs k with
  | some (Json.str s) => some s
  | some Json.null => some ""
  | none => some ""
  | some _ => none

/-- Unmarshal a boolean struct field: missing and null decode to false. -/
def decodeBoolField (kvs : List (String × Json)) (k : String) : Option Bool :=
  match jlookup kvs k with
  | some (Json.bool b) => some b
  | some Json.null => some false
  | none => some false
  | some _ => none

/-- Unmarshal an integer struct field (the timestamp): missing and null
decode to zero. -/
def decodeIntField (kvs : List (String × Json)) (k : String) : Option Int :=
  match jlookup kvs k with
  | some (Json.num n) => some n
  | some Json.null => some 0
  | none => some 0
  | some _ => none

/-- Unmarshal an `interface{}` struct field: any value verbatim, missing
decodes to null. -/
def decodeAnyField (kvs : List (String × Json)) (k : String) : Json :=
  match jlookup kvs k with
  | some j => j
  | none => Json.null

/-- Unmarshal a `ToolCall` from its wire object. -/
def decodeToolCall (j : Json) : Option ToolCall :=
  match j with
  | Json.obj kvs =>
    match decodeStringField kvs "tool_name", decodeStringField kvs "reasoning" with
    | some n, some r =>
      match jlookup kvs "arguments" with
      | some (Json.obj args) => some { toolName := n, arguments := args, reasoning := r }
      | some Json.null => some { toolName := n, arguments := [], reasoning := r }
      | none => some { toolName := n, arguments := [], reasoning := r }
      | some _ => none
    | _, _ => none
  | _ => none

/-- Unmarshal a `ToolResult` from its wire object. -/
def decodeToolResult (j : Json) : Option ToolResult :=
  match j with
  | Json.obj kvs =>
    match decodeStringField kvs "tool_name", decodeBoolField kvs "success",
          decodeStringField kvs "error" with
    | some n, some s, some e =>
      some { toolName := n, success := s, data := decodeAnyField kvs "data", error := e }
    | _, _, _ => none
  | _ => none

/-- Unmarshal a JSON array elementwise, rejecting the whole array when any
element is rejected, as `json.Unmarshal` does for a slice of structs. -/
def decodeSeq {α : Type} (dec : Json → Option α) : List Json → Option (List α)
  | [] => some []
  | x :: xs =>
    match dec x with
    | none => none
    | some a =>
      match decodeSeq dec xs with
      | none => none
      | some as => some (a :: as)

/-- Unmarshal a list-of-structs field: missing and null decode to the empty
list, an array decodes elementwise. -/
def decodeListField {α : Type} (dec : Json → Option α) (kvs : List (String × Json))
    (k : String) : Option (List α) :=
  match jlookup kvs k with
  | some (Json.arr xs) => decodeSeq dec xs
  | some Json.null => some []
  | none => some []
  | some _ => none

/-- Unmarshal a `QueryResult` from its wire object. -/
def decodeQueryResult (j : Json) : Option QueryResult :=
  match j with
  | Json.obj kvs =>
    match decodeStringField kvs "query", decodeListField decodeToolCall kvs "tool_calls",
          decodeListField decodeToolResult kvs "results", decodeStringField kvs "summary",
          decodeIntField kvs "processed_at" with
    | some q, some tcs, some trs, some sm, some ts =>
      some { query := q, toolCalls := tcs, results := trs, summary := sm, processedAt := ts }
    | _, _, _, _, _ => none
  | _ => none

/-! ### Concrete fixtures used by witnesses and counterexamples -/

/-- Reply from the completion backend wrapping a valid decision object in
extraneous prose, from the spec's testable property. -/
def proseWrappedReply : String :=
  "Sure! \x7b\"tool_name\":\"x\",\"arguments\":\x7b\x7d,\"reasoning\":\"r\"\x7d thanks"

/-- Environment in which the provider decides that no tool is needed. -/
def envNoTool : AgentEnv :=
  { listTools := .ok []
  , generateToolCall := .ok none
  , callTool := .ok ⟨[], false⟩
  , respondNoTool := .ok "I can help you with various tasks using the available tools."
  , respondSummary := .ok "done"
  , now := 0 }

/-- Tool call fixture. -/
def tcFix : ToolCall :=
  { toolName := "loki_query", arguments := [], reasoning := "r" }

/-- Environment in which the provider picks `tcFix` and the tool invocation
fails at the transport level. -/
def envToolFails : AgentEnv :=
  { listTools := .ok [⟨"loki_query", "Query Loki logs"⟩]
  , generateToolCall := .ok (some tcFix)
  , callTool := .error "connection refused"
  , respondNoTool := .ok "unused"
  , respondSummary := .ok "summary text"
  , now := 5 }

/-- Environment in which the provider picks `tcFix`, the invocation
succeeds, and summarization fails. -/
def envSummaryFails : AgentEnv :=
  { listTools := .ok [⟨"loki_query", "Query Loki logs"⟩]
  , generateToolCall := .ok (some tcFix)
  , callTool := .ok ⟨[MContent.text "log line"], false⟩
  , respondNoTool := .ok "unused"
  , respondSummary := .error "backend unreachable"
  , now := 7 }

/-- Result produced by `processQuery` under `envNoTool`. -/
def qrNoTool : QueryResult :=
  { query := "hi", toolCalls := [], results := []
  , summary := "I can help you with various tasks using the available tools."
  , processedAt := 0 }

/-- Handshake oracle that always succeeds with handle 42. -/
def createOk : Nat → Except String Nat := fun _ => Except.ok 42

/-! ## Theorems -/

/-- Claim C1: every `QueryResult` returned by `Agent.ProcessQuery` has
tool-call and result lists of equal length, and both lists are empty exactly
when the reasoning provider's decision step returned null (no tool
needed). -/
theorem processQuery_lists_invariant (env : AgentEnv) (query : String) (qr : QueryResult)
    (h : processQuery env query = .ok qr) :
    qr.toolCalls.length = qr.results.length ∧
    ((qr.toolCalls = [] ∧ qr.results = []) ↔ env.generateToolCall = .ok none) := by
  cases hlt : env.listTools with
  | error e => simp [processQuery, hlt] at h
  | ok tools =>
    cases hgc : env.generateToolCall with
    | error e => simp [processQuery, hlt, hgc] at h
    | ok otc =>
      cases otc with
      | none =>
        cases hr : env.respondNoTool with
        | error e => simp [processQuery, hlt, hgc, hr] at h
        | ok resp =>
          simp only [processQuery, hlt, hgc, hr, Except.ok.injEq] at h
          subst h
          simp
      | some tc =>
        simp only [processQuery, hlt, hgc, Except.ok.injEq] at h
        subst h
        simp

theorem processQuery_lists_invariant_witness :
    processQuery envNoTool "hi" = .ok qrNoTool ∧
    (qrNoTool.toolCalls.length = qrNoTool.results.length ∧
      ((qrNoTool.toolCalls = [] ∧ qrNoTool.results = []) ↔
        envNoTool.generateToolCall = .ok none)) :=
  ⟨rfl, processQuery_lists_invariant envNoTool "hi" qrNoTool rfl⟩

/-- Claim C3: a tool invocation failing with a transport error does not make
`Agent.ProcessQuery` fail; the returned `QueryResult` carries exactly one
outcome, failed and holding the (non-empty) error text. -/
theorem processQuery_tool_failure_not_propagated (env : AgentEnv) (query : String)
    (tc : ToolCall) (e : String) (tools : List MTool)
    (hlt : env.listTools = .ok tools)
    (hgc : env.generateToolCall = .ok (some tc))
    (hct : env.callTool = .error e) (hne : e ≠ "") :
    ∃ qr, processQuery env query = .ok qr ∧
      qr.results = [{ toolName := tc.toolName, success := false, data := Json.null,
                      error := e }] ∧
      qr.toolCalls = [tc] ∧
      ∀ r ∈ qr.results, r.success = false ∧ r.error ≠ "" := by
  simp only [processQuery, hlt, hgc, hct, executeTool]
  refine ⟨_, rfl, rfl, rfl, ?_⟩
  intro r hr
  simp only [List.mem_singleton] at hr
  subst hr
  exact ⟨rfl, hne⟩

theorem processQuery_tool_failure_witness :
    ∃ qr, processQuery envToolFails "find errors" = .ok qr ∧
      qr.results = [{ toolName := "loki_query", success := false, data := Json.null,
                      error := "connection refused" }] ∧
      qr.toolCalls = [tcFix] ∧
      ∀ r ∈ qr.results, r.success = false ∧ r.error ≠ "" :=
  processQuery_tool_failure_not_propagated envToolFails "find errors" tcFix
    "connection refused" [⟨"loki_query", "Query Loki logs"⟩] rfl rfl rfl (by decide)

/-- Claim C6: when summarization fails after a tool has been invoked,
`Agent.ProcessQuery` still succeeds and the summary is the fixed template
naming the invoked tool and the original query text. -/
theorem processQuery_summary_fallback (env : AgentEnv) (query : String)
    (tc : ToolCall) (e : String) (tools : List MTool)
    (hlt : env.listTools = .ok tools)
    (hgc : env.generateToolCall = .ok (some tc))
    (hsum : env.respondSummary = .error e) :
    ∃ qr, processQuery env query = .ok qr ∧
      qr.summary = "Executed tool '" ++ tc.toolName ++ "' for query: " ++ query := by
  simp only [processQuery, hlt, hgc, hsum]
  exact ⟨_, rfl, rfl⟩

theorem processQuery_summary_fallback_witness :
    ∃ qr, processQuery envSummaryFails "find errors" = .ok qr ∧
      qr.summary = "Executed tool 'loki_query' for query: find errors" :=
  processQuery_summary_fallback envSummaryFails "find errors" tcFix "backend unreachable"
    [⟨"loki_query", "Query Loki logs"⟩] rfl rfl rfl

/-- Claim C7 (amended): the outcome built by `Agent.executeTool` never has
payload and error text both set; a transport failure yields a failed outcome
holding exactly the error text and no payload; on transport success the
error text is always empty (even when the server reports a logical error)
and the success flag is the negation of the server-reported error flag. -/
theorem executeTool_outcome_shape (tc : ToolCall) (callRes : Except String CallToolResult) :
    ((executeTool tc callRes).1.data ≠ Json.null → (executeTool tc callRes).1.error = "") ∧
    ((executeTool tc callRes).1.error ≠ "" → (executeTool tc callRes).1.data = Json.null) ∧
    (∀ e, callRes = .error e →
      (executeTool tc callRes).1 =
        { toolName := tc.toolName, success := false, data := Json.null, error := e } ∧
      (executeTool tc callRes).2 = some e) ∧
    (∀ r, callRes = .ok r →
      (executeTool tc callRes).1.success = !r.isError ∧
      (executeTool tc callRes).1.error = "" ∧ (executeTool tc callRes).2 = none) := by
  cases callRes with
  | error e =>
    refine ⟨fun hd => absurd rfl hd, fun _ => rfl, ?_, ?_⟩
    · intro e' he'
      cases he'
      exact ⟨rfl, rfl⟩
    · intro r hr
      cases hr
  | ok r =>
    refine ⟨fun _ => rfl, fun he => absurd rfl he, ?_, ?_⟩
    · intro e' he'
      cases he'
    · intro r' hr'
      cases hr'
      exact ⟨rfl, rfl, rfl⟩

theorem executeTool_outcome_shape_witness :
    (executeTool tcFix (.error "boom")).1 =
      { toolName := "loki_query", success := false, data := Json.null, error := "boom" } ∧
    (executeTool tcFix (.ok ⟨[MContent.text "ok"], false⟩)).1.success = true ∧
    (executeTool tcFix (.ok ⟨[MContent.text "ok"], false⟩)).1.error = "" :=
  ⟨((executeTool_outcome_shape tcFix (.error "boom")).2.2.1 "boom" rfl).1,
   ((executeTool_outcome_shape tcFix (.ok ⟨[MContent.text "ok"], false⟩)).2.2.2
      ⟨[MContent.text "ok"], false⟩ rfl).1,
   ((executeTool_outcome_shape tcFix (.ok ⟨[MContent.text "ok"], false⟩)).2.2.2
      ⟨[MContent.text "ok"], false⟩ rfl).2.1⟩

/-- Counterexample to claim C7 as stated: a server-reported logical error
(`IsError = true` on a transport-level success) yields a failed outcome with
empty error text and a payload set, and a successful reply with no content
yields an outcome with neither payload nor error text set — so outcomes are
not "exactly one of payload or error text set" and a failed outcome need
not carry error text. -/
theorem executeTool_partial_outcome_counterexample :
    (executeTool tcFix (.ok ⟨[MContent.text "boom"], true⟩)).1.success = false ∧
    (executeTool tcFix (.ok ⟨[MContent.text "boom"], true⟩)).1.error = "" ∧
    (executeTool tcFix (.ok ⟨[MContent.text "boom"], true⟩)).1.data = Json.str "boom" ∧
    Json.str "boom" ≠ Json.null ∧
    (executeTool tcFix (.ok ⟨[], false⟩)).1.success = true ∧
    (executeTool tcFix (.ok ⟨[], false⟩)).1.data = Json.null ∧
    (executeTool tcFix (.ok ⟨[], false⟩)).1.error = "" :=
  ⟨rfl, rfl, rfl, by simp, rfl, rfl, rfl⟩

/-- Claim C2 (amended): a query whose text is exactly the empty string is
rejected by `Datasource.executeNaturalLanguageQuery` with a bad-request
validation error before any network operation (no handshake, no tool
listing); whitespace-only text is not rejected. -/
theorem executeNLQ_empty_query_rejected (env : DsEnv) (cached : Option Nat) :
    executeNaturalLanguageQuery env cached "" =
      (.badRequest "query text is required for natural language queries", []) := rfl

/-- Counterexample to claim C2 as stated: a whitespace-only query text is
not rejected — the code only compares against the empty string, so a single
space proceeds to the client handshake and the tool listing. -/
theorem executeNLQ_whitespace_counterexample :
    executeNaturalLanguageQuery ⟨.ok 0, .ok []⟩ none " " =
      (.frames " " 0, [NetEvent.handshake, NetEvent.listToolsCall]) ∧
    ([NetEvent.handshake, NetEvent.listToolsCall] : List NetEvent) ≠ [] ∧
    ∀ m, (DataResponse.frames " " 0) ≠ DataResponse.badRequest m :=
  ⟨rfl, by simp, fun m => by simp⟩

/-- Claim C8 (amended): `Datasource.getMCPClient` takes no lock, so two
concurrent first-time calls are not serialized: a sequential execution of
the two calls performs exactly one handshake and hands both callers the
same handle, but there is an interleaving (both tasks pass the nil-check
before either installs a client) under which two handshakes occur and the
callers observe different handles. -/
theorem getMCPClient_not_single_flight :
    ((runSched initTwoCalls [false, false, true, true]).sh.handshakes = 1 ∧
     (runSched initTwoCalls [false, false, true, true]).t0 = TaskPc.done 0 ∧
     (runSched initTwoCalls [false, false, true, true]).t1 = TaskPc.done 0) ∧
    ∃ sched : List Bool, (runSched initTwoCalls sched).sh.handshakes = 2 ∧
      (runSched initTwoCalls sched).t0 ≠ (runSched initTwoCalls sched).t1 :=
  ⟨⟨rfl, rfl, rfl⟩, ⟨[false, true, false, true], rfl, by decide⟩⟩

/-- Counterexample to claim C8 as stated: the interleaving in which both
tasks read the nil cached-client field before either performs the handshake
results in two handshakes (not exactly one) and the two callers observing
different handles. -/
theorem getMCPClient_concurrent_double_handshake :
    (runSched initTwoCalls [false, true, false, true]).sh.handshakes = 2 ∧
    (runSched initTwoCalls [false, true, false, true]).t0 = TaskPc.done 0 ∧
    (runSched initTwoCalls [false, true, false, true]).t1 = TaskPc.done 1 ∧
    (2 : Nat) ≠ 1 ∧ TaskPc.done 0 ≠ TaskPc.done 1 :=
  ⟨rfl, rfl, rfl, by decide, by decide⟩

theorem runAcquires_cached (create : Nat → Except String Nat) (n : Nat) (h c : Nat) :
    runAcquires create n ⟨some h, c⟩ = (List.replicate n (.ok h), ⟨some h, c⟩) := by
  induction n with
  | zero => rfl
  | succ n ih => simp [runAcquires, getMCPClientOnce, ih, List.replicate_succ]

/-- Claim C9: once a client handle is cached, every subsequent sequential
`getMCPClient` call returns the cached handle unchanged, and across any
sequence of successful sequential calls from a disconnected state the
handshake runs at most once. -/
theorem getMCPClient_single_handshake (create : Nat → Except String Nat) (n : Nat)
    (hok : ∀ r ∈ (runAcquires create n ⟨none, 0⟩).1, exceptIsOk r = true) :
    (runAcquires create n ⟨none, 0⟩).2.handshakes ≤ 1 ∧
    ∀ s h, s.client = some h → getMCPClientOnce create s = (.ok h, s) := by
  constructor
  · cases n with
    | zero => simp [runAcquires]
    | succ n =>
      cases hc : create 0 with
      | ok h =>
        have hrun : runAcquires create (n + 1) ⟨none, 0⟩ =
            (Except.ok h :: List.replicate n (Except.ok h), ⟨some h, 1⟩) := by
          simp [runAcquires, getMCPClientOnce, hc, runAcquires_cached]
        rw [hrun]
      | error e =>
        exfalso
        have hrun : (runAcquires create (n + 1) ⟨none, 0⟩).1 =
            Except.error e :: (runAcquires create n ⟨none, 1⟩).1 := by
          simp [runAcquires, getMCPClientOnce, hc]
        have hmem : Except.error e ∈ (runAcquires create (n + 1) ⟨none, 0⟩).1 := by
          rw [hrun]; exact List.mem_cons_self _ _
        have := hok _ hmem
        simp [exceptIsOk] at this
  · intro s h hs
    rcases s with ⟨cl, c⟩
    cases hs
    rfl

theorem getMCPClient_single_handshake_witness :
    (∀ r ∈ (runAcquires createOk 3 ⟨none, 0⟩).1, exceptIsOk r = true) ∧
    (runAcquires createOk 3 ⟨none, 0⟩).2.handshakes ≤ 1 :=
  ⟨by decide, (getMCPClient_single_handshake createOk 3 (by decide)).1⟩

theorem mockScanTools_eq_find (query queryLower : String) (tools : List MTool) :
    mockScanTools query queryLower tools =
      if intentKeywordMatch queryLower then
        (tools.find? (fun t => strContains (strToLower t.name) "loki")).map
          (mockLokiCall query queryLower)
      else none := by
  induction tools with
  | nil => simp [mockScanTools]
  | cons t ts ih =>
    cases hm : intentKeywordMatch queryLower with
    | false => simp [mockScanTools, hm, ih]
    | true =>
      cases hl : strContains (strToLower t.name) "loki" with
      | false => simp [mockScanTools, hm, hl, ih, List.find?]
      | true => simp [mockScanTools, hm, hl, List.find?]

/-- Claim C4 (amended): characterization of the deterministic stand-in's
decision.  On an empty catalog it returns no call.  Otherwise, when the
query (lower-cased) contains one of the intent keywords
(log/search/query/find/error), the first catalog tool whose name contains
"loki" receives the invocation with the LogQL template chosen by priority
error over warn over catch-all and `limit = 100`; when no loki tool exists
or the query matches no intent keyword — in particular for a query
containing "warn" but no intent keyword — the first catalog entry is
returned with empty arguments. -/
theorem mockGenerateToolCall_spec (query : String) (tools : List MTool) :
    mockGenerateToolCall query tools =
      match tools with
      | [] => none
      | firstTool :: _ =>
        if intentKeywordMatch (strToLower query) then
          match tools.find? (fun t => strContains (strToLower t.name) "loki") with
          | some t => some (mockLokiCall query (strToLower query) t)
          | none => some (mockFallback query firstTool)
        else some (mockFallback query firstTool) := by
  cases tools with
  | nil => rfl
  | cons t ts =>
    simp only [mockGenerateToolCall, mockScanTools_eq_find]
    cases hm : intentKeywordMatch (strToLower query) with
    | false => simp [hm]
    | true =>
      cases hf : (t :: ts).find? (fun t => strContains (strToLower t.name) "loki") with
      | none => simp [hm, hf]
      | some tl => simp [hm, hf]

/-- Counterexample to claim C4 as stated: the query "warnings" contains
"warn" and not "error", and the catalog contains a tool whose name contains
"loki", yet the stand-in does not produce the warn template — "warn" is not
one of the intent keywords, so the scan finds no match and the fallback
invocation with empty arguments is returned instead. -/
theorem mockGenerateToolCall_warn_counterexample :
    mockGenerateToolCall "warnings" [⟨"loki_query", "Query Loki logs"⟩] =
      some (mockFallback "warnings" ⟨"loki_query", "Query Loki logs"⟩) ∧
    (mockFallback "warnings" ⟨"loki_query", "Query Loki logs"⟩).arguments = [] ∧
    ∀ v rest, ([] : List (String × Json)) ≠ ("query", v) :: rest :=
  ⟨rfl, rfl, fun v rest => by simp⟩

theorem decisionOf_invalid_tool_name (result : List (String × Json))
    (h1 : noToolIndicated result = false) (h2 : toolNameIsString result = false) :
    decisionOf result = .error "invalid tool_name in response" := by
  unfold noToolIndicated at h1
  unfold toolNameIsString at h2
  unfold decisionOf
  split
  · rename_i heq
    rw [heq] at h1
    simp at h1
  · split
    · rename_i toolName heq
      rw [heq] at h2
      simp at h2
    · rfl

/-- Claim C5: the remote provider's decision step first parses the entire
reply as a JSON object; if that fails it parses the substring from the
first opening brace to the last closing brace; a decision object wrapped in
prose is therefore accepted; it fails with a reasoning error when neither
parse succeeds, or when the parsed object does not indicate "no tool
needed" and carries no string `tool_name`. -/
theorem anthropic_two_stage_parse (response : String) :
    (∀ result, unmarshalObject response = some result →
      anthropicGenerateToolCall response = decisionOf result) ∧
    (unmarshalObject response = none →
      ∀ sub result, extractBracesSub response = some sub →
        unmarshalObject sub = some result →
        anthropicGenerateToolCall response = decisionOf result) ∧
    (unmarshalObject response = none →
      (∀ sub, extractBracesSub response = some sub → unmarshalObject sub = none) →
      ∃ e, anthropicGenerateToolCall response = .error e) ∧
    (∀ result, noToolIndicated result = false → toolNameIsString result = false →
      decisionOf result = .error "invalid tool_name in response") := by
  refine ⟨?_, ?_, ?_, fun result h1 h2 => decisionOf_invalid_tool_name result h1 h2⟩
  · intro result h
    simp [anthropicGenerateToolCall, h]
  · intro h sub result hsub hres
    simp [anthropicGenerateToolCall, h, hsub, hres]
  · intro h hall
    cases hsub : extractBracesSub response with
    | none =>
      exact ⟨"no valid JSON found in response: " ++ response,
        by simp [anthropicGenerateToolCall, h, hsub]⟩
    | some sub =>
      exact ⟨"failed to parse tool selection response",
        by simp [anthropicGenerateToolCall, h, hsub, hall sub hsub]⟩

theorem anthropic_two_stage_parse_witness :
    anthropicGenerateToolCall proseWrappedReply =
      .ok (some { toolName := "x", arguments := [], reasoning := "r" }) ∧
    unmarshalObject proseWrappedReply = none := by
  constructor
  · have h := (anthropic_two_stage_parse proseWrappedReply).2.1 rfl
      "\x7b\"tool_name\":\"x\",\"arguments\":\x7b\x7d,\"reasoning\":\"r\"\x7d"
      [("tool_name", Json.str "x"), ("arguments", Json.obj []), ("reasoning", Json.str "r")]
      rfl rfl
    exact h.trans rfl
  · rfl

theorem decodeToolCall_encodeToolCall (tc : ToolCall) :
    decodeToolCall (encodeToolCall tc) = some tc := rfl

theorem decodeToolResult_encodeToolResult (tr : ToolResult) :
    decodeToolResult (encodeToolResult tr) = some tr := by
  rcases tr with ⟨n, s, d, e⟩
  by_cases he : e = ""
  · subst he
    rfl
  · simp only [encodeToolResult, if_neg he]
    rfl

theorem decodeSeq_encodeToolCall (xs : List ToolCall) :
    decodeSeq decodeToolCall (xs.map encodeToolCall) = some xs := by
  induction xs with
  | nil => rfl
  | cons x xs ih => simp [decodeSeq, decodeToolCall_encodeToolCall, ih]

theorem decodeSeq_encodeToolResult (xs : List ToolResult) :
    decodeSeq decodeToolResult (xs.map encodeToolResult) = some xs := by
  induction xs with
  | nil => rfl
  | cons x xs ih => simp [decodeSeq, decodeToolResult_encodeToolResult, ih]

/-- Claim C10: encoding a `QueryResult` to its wire JSON document and
decoding it back yields the original value, field for field — query text,
tool calls with their arguments, results with their data, summary, and
timestamp. -/
theorem queryResult_roundtrip (qr : QueryResult) :
    decodeQueryResult (encodeQueryResult qr) = some qr := by
  rcases qr with ⟨q, tcs, trs, sm, ts⟩
  simp only [encodeQueryResult, decodeQueryResult, decodeListField, decodeStringField,
    decodeIntField, jlookup, List.foldl]
  simp [decodeSeq_encodeToolCall, decodeSeq_encodeToolResult]

end MCPAgent
